import Mathlib

/-!
Shallow embedding of the IP2Proxy lookup engine (ip2location/ip2proxy-go,
`ip2proxy.go`, module version 4.0.1), together with theorems checking the
natural-language specification against it.

Modelling conventions:
* bytes and machine integers are `Nat` with explicit `% 256`, `% 4294967296`
  (uint8 / uint32 wraparound) where the Go code performs fixed-width
  arithmetic; 128-bit values are `Nat` with `% 2 ^ 128` facts as hypotheses;
* the `dbReader` interface (`io.ReaderAt`) is a function from a 0-based
  offset and a length to the filled buffer plus an optional error string,
  mirroring Go's contract (buffer zero-filled past a short read, error
  `"EOF"` on a short read of a plain file, arbitrary errors otherwise);
* Go's fallible functions returning `(value, error)` become `Except` or
  pairs with `Option String`;
* `net.ParseIP` is external to the repository, so a parsed address is an
  `Option ParsedIP` input (`none` = unparseable text).
-/

namespace IP2Proxy

/-- A byte file: the sequence of bytes of a BIN database.  Entries are read
mod 256, so any `Nat` list denotes a well-defined file. -/
abbrev ByteFile := List Nat

/-- Model of the `dbReader` interface (`io.ReaderAt` + `io.Closer`):
`readAt off len` returns the `len`-byte buffer after the positioned read and
an optional error. -/
structure DBReader where
  readAt : Nat → Nat → List Nat × Option String

/-- The `len` bytes of `f` starting at 0-based offset `off`, zero-filled past
the end of the file (Go's `ReadAt` leaves the zeroed buffer untouched there). -/
def sliceAt (f : ByteFile) (off len : Nat) : List Nat :=
  (List.range len).map (fun i => f.getD (off + i) 0 % 256)

/-- `os.File.ReadAt` model: reads `len` bytes at `off`; a read reaching past
the end of file reports `"EOF"` (with the available bytes in the buffer). -/
def goReadAt (f : ByteFile) (off len : Nat) : List Nat × Option String :=
  (sliceAt f off len, if f.length < off + len then some "EOF" else none)

/-- The reader backed by a plain byte file. -/
def fileReader (f : ByteFile) : DBReader :=
  ⟨fun off len => goReadAt f off len⟩

/-- `row[i]` for a read buffer (Go slices panic out of range; buffers are
always allocated with the full requested length, so in-range by use). -/
def byteAt (row : List Nat) (i : Nat) : Nat :=
  row.getD i 0

/-- Little-endian value of the `n` bytes of `row` starting at `pos`. -/
def leVal (row : List Nat) (pos : Nat) : Nat → Nat
  | 0 => 0
  | Nat.succ k => byteAt row pos + 256 * leVal row (pos + 1) k

/-- `readUint32Row`: little-endian uint32 from `row[pos : pos+4]`. -/
def readUint32Row (row : List Nat) (pos : Nat) : Nat :=
  leVal row pos 4

/-- `readUint128Row`: little-endian uint128 from `row[pos : pos+16]`
(`uint128.FromBytes` is little-endian). -/
def readUint128Row (row : List Nat) (pos : Nat) : Nat :=
  leVal row pos 16

/-- `readUint8`: one byte at 1-based position `pos` (`ReadAt(data, pos-1)`). -/
def readUint8 (r : DBReader) (pos : Nat) : Except String Nat :=
  match r.readAt (pos - 1) 1 with
  | (_, some e) => .error e
  | (data, none) => .ok (byteAt data 0)

/-- `readRow`: `size` bytes at 1-based position `pos` (`ReadAt(data, pos-1)`). -/
def readRow (r : DBReader) (pos size : Nat) : Except String (List Nat) :=
  match r.readAt (pos - 1) size with
  | (_, some e) => .error e
  | (data, none) => .ok data

/-- `readUint32`: little-endian uint32 at 1-based position `pos`
(`ReadAt(data, pos-1)`). -/
def readUint32 (r : DBReader) (pos : Nat) : Except String Nat :=
  match r.readAt (pos - 1) 4 with
  | (_, some e) => .error e
  | (data, none) => .ok (readUint32Row data 0)

/-- `readUint128`: little-endian uint128 at 1-based position `pos`
(`ReadAt(data, pos-1)`). -/
def readUint128 (r : DBReader) (pos : Nat) : Except String Nat :=
  match r.readAt (pos - 1) 16 with
  | (_, some e) => .error e
  | (data, none) => .ok (readUint128Row data 0)

/-- `convertBytesToString`: expose decoded bytes as text (byte-injective). -/
def convertBytesToString (b : List Nat) : String :=
  String.mk (b.map (fun n => Char.ofNat n))

/-- String payload of a `readStr` buffer: `data[0]` is the length,
`data[1 : strLen+1]` the bytes. -/
def strOfBuf (data : List Nat) : String :=
  convertBytesToString (data.tail.take (byteAt data 0))

/-- `readStr`: reads a 256-byte window at position `pos` — note the source
calls `ReadAt(data, pos2)` with NO `-1` adjustment here — and bypasses a
plain `"EOF"` error (the window may reach past end of file). -/
def readStr (r : DBReader) (pos : Nat) : Except String String :=
  let res := r.readAt pos 256
  match res.2 with
  | some e => if e = "EOF" then .ok (strOfBuf res.1) else .error e
  | none => .ok (strOfBuf res.1)

/-- The `IP2ProxyRecord` struct (`IsProxy` is an `int8`). -/
structure IP2ProxyRecord where
  CountryShort : String
  CountryLong : String
  Region : String
  City : String
  Isp : String
  ProxyType : String
  Domain : String
  UsageType : String
  Asn : String
  As : String
  LastSeen : String
  Threat : String
  Provider : String
  IsProxy : Int
deriving DecidableEq

/-- `ip2proxyMeta`. -/
structure Ip2proxyMeta where
  databaseType : Nat
  databaseColumn : Nat
  databaseDay : Nat
  databaseMonth : Nat
  databaseYear : Nat
  ipV4DatabaseCount : Nat
  ipV4DatabaseAddr : Nat
  ipV6DatabaseCount : Nat
  ipV6DatabaseAddr : Nat
  ipV4Indexed : Bool
  ipV6Indexed : Bool
  ipV4IndexBaseAddr : Nat
  ipV6IndexBaseAddr : Nat
  ipV4ColumnSize : Nat
  ipV6ColumnSize : Nat
  productCode : Nat
  productType : Nat
  fileSize : Nat

/-- The `DB` struct: open handle with cached metadata, per-field byte
offsets into a data row, and per-field presence flags. -/
structure DB where
  f : DBReader
  meta : Ip2proxyMeta
  countryPositionOffset : Nat
  regionPositionOffset : Nat
  cityPositionOffset : Nat
  ispPositionOffset : Nat
  proxyTypePositionOffset : Nat
  domainPositionOffset : Nat
  usageTypePositionOffset : Nat
  asnPositionOffset : Nat
  asPositionOffset : Nat
  lastSeenPositionOffset : Nat
  threatPositionOffset : Nat
  providerPositionOffset : Nat
  countryEnabled : Bool
  regionEnabled : Bool
  cityEnabled : Bool
  ispEnabled : Bool
  proxyTypeEnabled : Bool
  domainEnabled : Bool
  usageTypeEnabled : Bool
  asnEnabled : Bool
  asEnabled : Bool
  lastSeenEnabled : Bool
  threatEnabled : Bool
  providerEnabled : Bool
  metaOK : Bool

/-- Field bit masks (`countryShort` .. `provider`). -/
def countryShort : Nat := 0x00001
def countryLong : Nat := 0x00002
def region : Nat := 0x00004
def city : Nat := 0x00008
def isp : Nat := 0x00010
def proxyType : Nat := 0x00020
def isProxy : Nat := 0x00040
def domain : Nat := 0x00080
def usageType : Nat := 0x00100
def asn : Nat := 0x00200
def as : Nat := 0x00400
def lastSeen : Nat := 0x00800
def threat : Nat := 0x01000
def provider : Nat := 0x02000

/-- Sentinel messages. -/
def msgNotSupported : String := "NOT SUPPORTED"
def msgInvalidIP : String := "INVALID IP ADDRESS"
def msgMissingFile : String := "MISSING FILE"
def msgIPV6Unsupported : String := "IPV6 ADDRESS MISSING IN IPV4 BIN"
def msgInvalidBin : String := "Incorrect IP2Proxy BIN file format. Please make sure that you are using the latest IP2Proxy BIN file."

/-- `loadMessage`: record with every string field set to `mesg` and
`IsProxy = -1`. -/
def loadMessage (mesg : String) : IP2ProxyRecord :=
  { CountryShort := mesg, CountryLong := mesg, Region := mesg, City := mesg
    Isp := mesg, ProxyType := mesg, Domain := mesg, UsageType := mesg
    Asn := mesg, As := mesg, LastSeen := mesg, Threat := mesg
    Provider := mesg, IsProxy := -1 }

/-- The classification computed at the end of a matched `query`
(`ip2proxy.go` lines 777–785). -/
def computeIsProxy (cShort pType : String) : Int :=
  if cShort = "-" ∨ pType = "-" then 0
  else if pType = "DCH" ∨ pType = "SES" then 2
  else 1

/-- IPv4 row size as computed in `OpenDBWithReader`:
`uint32(databaseColumn << 2)` — the shift is performed on the `uint8`
column count before widening, hence mod 256. -/
def ipv4ColumnSizeOf (c : Nat) : Nat :=
  c * 4 % 256

/-- IPv6 row size as computed in `OpenDBWithReader`:
`uint32(16 + ((databaseColumn - 1) << 2))` — every operation is `uint8`
arithmetic before widening (`c - 1` wraps for `c = 0`), hence mod 256. -/
def ipv6ColumnSizeOf (c : Nat) : Nat :=
  (16 + (c + 255) % 256 * 4 % 256) % 256

/-- One field-decoding step of the matched branch of `query`: on an already
failed state do nothing; otherwise, when the step's guard holds, `readStr`
the field and either record the error or store the decoded string. -/
def decodeStep (r : DBReader) (acc : IP2ProxyRecord × Option String)
    (st : Bool × Nat × (String → IP2ProxyRecord → IP2ProxyRecord)) :
    IP2ProxyRecord × Option String :=
  match acc with
  | (x, some e) => (x, some e)
  | (x, none) =>
    if st.1 then
      match readStr r st.2.1 with
      | .error e => (x, some e)
      | .ok s => (st.2.2 s x, none)
    else (x, none)

/-- Run the decoding steps in order; Go's early `return x, err` on the first
failing read is the error short-circuit of `decodeStep`. -/
def runSteps (r : DBReader)
    (steps : List (Bool × Nat × (String → IP2ProxyRecord → IP2ProxyRecord)))
    (acc : IP2ProxyRecord × Option String) : IP2ProxyRecord × Option String :=
  match steps with
  | [] => acc
  | st :: rest => runSteps r rest (decodeStep r acc st)

/-- The field-decoding sequence of the matched branch of `query`
(lines 693–775), in source order.  `countryPos` is the 4-byte pointer read
from the row once and shared by the short/long country fields (+3 offset
for the long name). -/
def decodeSteps (d : DB) (mode : Nat) (row : List Nat) :
    List (Bool × Nat × (String → IP2ProxyRecord → IP2ProxyRecord)) :=
  let countryPos := readUint32Row row d.countryPositionOffset
  [ (d.proxyTypeEnabled && (mode &&& proxyType != 0 || mode &&& isProxy != 0),
      readUint32Row row d.proxyTypePositionOffset,
      fun s x => { x with ProxyType := s }),
    (d.countryEnabled && (mode &&& countryShort != 0 || mode &&& isProxy != 0),
      countryPos, fun s x => { x with CountryShort := s }),
    (d.countryEnabled && (mode &&& countryLong != 0),
      countryPos + 3, fun s x => { x with CountryLong := s }),
    (mode &&& region != 0 && d.regionEnabled,
      readUint32Row row d.regionPositionOffset,
      fun s x => { x with Region := s }),
    (mode &&& city != 0 && d.cityEnabled,
      readUint32Row row d.cityPositionOffset,
      fun s x => { x with City := s }),
    (mode &&& isp != 0 && d.ispEnabled,
      readUint32Row row d.ispPositionOffset,
      fun s x => { x with Isp := s }),
    (mode &&& domain != 0 && d.domainEnabled,
      readUint32Row row d.domainPositionOffset,
      fun s x => { x with Domain := s }),
    (mode &&& usageType != 0 && d.usageTypeEnabled,
      readUint32Row row d.usageTypePositionOffset,
      fun s x => { x with UsageType := s }),
    (mode &&& asn != 0 && d.asnEnabled,
      readUint32Row row d.asnPositionOffset,
      fun s x => { x with Asn := s }),
    (mode &&& as != 0 && d.asEnabled,
      readUint32Row row d.asPositionOffset,
      fun s x => { x with As := s }),
    (mode &&& lastSeen != 0 && d.lastSeenEnabled,
      readUint32Row row d.lastSeenPositionOffset,
      fun s x => { x with LastSeen := s }),
    (mode &&& threat != 0 && d.threatEnabled,
      readUint32Row row d.threatPositionOffset,
      fun s x => { x with Threat := s }),
    (mode &&& provider != 0 && d.providerEnabled,
      readUint32Row row d.providerPositionOffset,
      fun s x => { x with Provider := s }) ]

/-- The matched branch of `query`: decode the requested fields from the row,
then (only if no read failed) derive `IsProxy` from the decoded country
short code and proxy type. -/
def decodeRow (d : DB) (x : IP2ProxyRecord) (mode : Nat) (row : List Nat) :
    IP2ProxyRecord × Option String :=
  match runSteps d.f (decodeSteps d mode row) (x, none) with
  | (y, some e) => (y, some e)
  | (y, none) => ({ y with IsProxy := computeIsProxy y.CountryShort y.ProxyType }, none)

/-- Numeric range constants of `ip2proxy.go` (decimal literals as in the
source's `SetString` calls). -/
def maxIPV4Range : Nat := 4294967295

/-- Maximum IPv6 value, `2^128 - 1`. -/
def maxIPV6Range : Nat := 340282366920938463463374607431768211455

/-- Lower bound of the v4-mapped range `::ffff:0:0`. -/
def fromV4Mapped : Nat := 281470681743360

/-- Upper bound of the v4-mapped range `::ffff:ffff:ffff`. -/
def toV4Mapped : Nat := 281474976710655

/-- Lower bound of the 6to4 range `2002::`. -/
def from6To4 : Nat := 42545680458834377588178886921629466624

/-- Upper bound of the 6to4 range `2002:ffff:...:ffff`. -/
def to6To4 : Nat := 42550872755692912415807417417958686719

/-- Lower bound of the Teredo range `2001:0000::`. -/
def fromTeredo : Nat := 42540488161975842760550356425300246528

/-- Upper bound of the Teredo range `2001:0000:ffff:...:ffff`. -/
def toTeredo : Nat := 42540488241204005274814694018844196863

/-- Result of `net.ParseIP` (external to the repository): `v4 n` when
`To4()` is non-nil with big-endian 32-bit value `n`; `v6 n` for other
IPv6 addresses with 128-bit value `n` (`reverseBytes` + little-endian
`FromBytes` = the big-endian numeric value). -/
inductive ParsedIP where
  | v4 (n : Nat)
  | v6 (n : Nat)
deriving DecidableEq

/-- The special-range rewriting of `checkIP` on an IPv6 numeric value
(lines 187–201): v4-mapped subtracts the range base; 6to4 shifts right by
80 bits and masks to the low 32 bits; Teredo complements (on 128 bits,
`^n = 2^128 - 1 - n`) and masks to the low 32 bits; otherwise the address
stays family 6.  `And(last32Bits)` is `% 2^32`. -/
def normalizeV6 (n : Nat) : Nat × Nat :=
  if fromV4Mapped ≤ n ∧ n ≤ toV4Mapped then (4, n - fromV4Mapped)
  else if from6To4 ≤ n ∧ n ≤ to6To4 then (4, n / 2 ^ 80 % 4294967296)
  else if fromTeredo ≤ n ∧ n ≤ toTeredo then
    (4, (340282366920938463463374607431768211455 - n) % 4294967296)
  else (6, n)

/-- `checkIP`: address family, numeric key, and index-table slot.  The slot
arithmetic is `Rsh` 16 (or 112) then `Lsh` 3, added to the index base and
truncated to uint32 (`uint32(....Lo)`). -/
def checkIP (d : DB) (parsed : Option ParsedIP) : Nat × Nat × Nat :=
  let tn : Nat × Nat :=
    match parsed with
    | none => (0, 0)
    | some (.v4 n) => (4, n)
    | some (.v6 n) => normalizeV6 n
  let ipType := tn.1
  let ipNum := tn.2
  let ipIndex : Nat :=
    if ipType = 4 then
      if d.meta.ipV4Indexed then
        (ipNum / 65536 * 8 + d.meta.ipV4IndexBaseAddr) % 4294967296
      else 0
    else if ipType = 6 then
      if d.meta.ipV6Indexed then
        (ipNum / 2 ^ 112 * 8 + d.meta.ipV6IndexBaseAddr) % 4294967296
      else 0
    else 0
  (ipType, ipNum, ipIndex)

/-- Column-position tables indexed by database type (`countryPosition` ..
`providerPosition`). -/
def countryPosition : List Nat := [0, 2, 3, 3, 3, 3, 3, 3, 3, 3, 3, 3]

/-- `regionPosition`. -/
def regionPosition : List Nat := [0, 0, 0, 4, 4, 4, 4, 4, 4, 4, 4, 4]

/-- `cityPosition`. -/
def cityPosition : List Nat := [0, 0, 0, 5, 5, 5, 5, 5, 5, 5, 5, 5]

/-- `ispPosition`. -/
def ispPosition : List Nat := [0, 0, 0, 0, 6, 6, 6, 6, 6, 6, 6, 6]

/-- `proxyTypePosition`. -/
def proxyTypePosition : List Nat := [0, 0, 2, 2, 2, 2, 2, 2, 2, 2, 2, 2]

/-- `domainPosition`. -/
def domainPosition : List Nat := [0, 0, 0, 0, 0, 7, 7, 7, 7, 7, 7, 7]

/-- `usageTypePosition`. -/
def usageTypePosition : List Nat := [0, 0, 0, 0, 0, 0, 8, 8, 8, 8, 8, 8]

/-- `asnPosition`. -/
def asnPosition : List Nat := [0, 0, 0, 0, 0, 0, 0, 9, 9, 9, 9, 9]

/-- `asPosition`. -/
def asPosition : List Nat := [0, 0, 0, 0, 0, 0, 0, 10, 10, 10, 10, 10]

/-- `lastSeenPosition`. -/
def lastSeenPosition : List Nat := [0, 0, 0, 0, 0, 0, 0, 0, 11, 11, 11, 11]

/-- `threatPosition`. -/
def threatPosition : List Nat := [0, 0, 0, 0, 0, 0, 0, 0, 0, 12, 12, 12]

/-- `providerPosition`. -/
def providerPosition : List Nat := [0, 0, 0, 0, 0, 0, 0, 0, 0, 0, 0, 13]

/-- Field offset derived from a position table entry:
`uint32(position[dbt]-2) << 2`. -/
def offsetOf (table : List Nat) (dbt : Nat) : Nat :=
  (table.getD dbt 0 - 2) * 4

/-- `OpenDBWithReader`: reads the 64-byte header, validates the structural
integrity conditions, and builds the `DB` handle.  The second component of
the result records whether `fatal` ran (i.e. whether the file handle was
closed on the failure path). -/
def OpenDBWithReader (reader : DBReader) : Except String DB × Bool :=
  match readRow reader 1 64 with
  | .error e => (.error e, true)
  | .ok row =>
    let m : Ip2proxyMeta :=
      { databaseType := byteAt row 0
        databaseColumn := byteAt row 1
        databaseYear := byteAt row 2
        databaseMonth := byteAt row 3
        databaseDay := byteAt row 4
        ipV4DatabaseCount := readUint32Row row 5
        ipV4DatabaseAddr := readUint32Row row 9
        ipV6DatabaseCount := readUint32Row row 13
        ipV6DatabaseAddr := readUint32Row row 17
        ipV4IndexBaseAddr := readUint32Row row 21
        ipV6IndexBaseAddr := readUint32Row row 25
        productCode := byteAt row 29
        productType := byteAt row 30
        fileSize := readUint32Row row 31
        ipV4Indexed := readUint32Row row 21 > 0
        ipV6Indexed := readUint32Row row 13 > 0 && readUint32Row row 25 > 0
        ipV4ColumnSize := ipv4ColumnSizeOf (byteAt row 1)
        ipV6ColumnSize := ipv6ColumnSizeOf (byteAt row 1) }
    if (m.productCode ≠ 2 ∧ m.databaseYear ≥ 21) ∨
        (m.databaseType = 80 ∧ m.databaseColumn = 75) then
      (.error msgInvalidBin, true)
    else
      (.ok
        { f := reader
          meta := m
          countryPositionOffset := offsetOf countryPosition m.databaseType
          regionPositionOffset := offsetOf regionPosition m.databaseType
          cityPositionOffset := offsetOf cityPosition m.databaseType
          ispPositionOffset := offsetOf ispPosition m.databaseType
          proxyTypePositionOffset := offsetOf proxyTypePosition m.databaseType
          domainPositionOffset := offsetOf domainPosition m.databaseType
          usageTypePositionOffset := offsetOf usageTypePosition m.databaseType
          asnPositionOffset := offsetOf asnPosition m.databaseType
          asPositionOffset := offsetOf asPosition m.databaseType
          lastSeenPositionOffset := offsetOf lastSeenPosition m.databaseType
          threatPositionOffset := offsetOf threatPosition m.databaseType
          providerPositionOffset := offsetOf providerPosition m.databaseType
          countryEnabled := countryPosition.getD m.databaseType 0 ≠ 0
          regionEnabled := regionPosition.getD m.databaseType 0 ≠ 0
          cityEnabled := cityPosition.getD m.databaseType 0 ≠ 0
          ispEnabled := ispPosition.getD m.databaseType 0 ≠ 0
          proxyTypeEnabled := proxyTypePosition.getD m.databaseType 0 ≠ 0
          domainEnabled := domainPosition.getD m.databaseType 0 ≠ 0
          usageTypeEnabled := usageTypePosition.getD m.databaseType 0 ≠ 0
          asnEnabled := asnPosition.getD m.databaseType 0 ≠ 0
          asEnabled := asPosition.getD m.databaseType 0 ≠ 0
          lastSeenEnabled := lastSeenPosition.getD m.databaseType 0 ≠ 0
          threatEnabled := threatPosition.getD m.databaseType 0 ≠ 0
          providerEnabled := providerPosition.getD m.databaseType 0 ≠ 0
          metaOK := true }, false)

/-- Row bound value: uint32 `ipFrom` for family 4, uint128 for family 6. -/
def rowVal (ipType : Nat) (row : List Nat) (pos : Nat) : Nat :=
  if ipType = 4 then readUint32Row row pos else readUint128Row row pos

/-- The binary-search loop of `query` (lines 663–795).  Each iteration reads
one extended row (`colSize + firstCol` bytes, i.e. the whole row plus the
next row's `ipFrom` field); `ipTo` is read at offset `colSize`, which is the
adjacent next row's `ipFrom`.  On `ipFrom ≤ ipNo < ipTo` the row's field
region is decoded; otherwise the window is narrowed with
`high = mid - 1` / `low = mid + 1` in uint32 arithmetic (hence the
`% 4294967296` wraparounds).  `fuel` only bounds the recursion; the loop
exit `low > high` and fuel exhaustion both yield the untouched record. -/
def searchLoop (d : DB) (ipType : Nat) (x : IP2ProxyRecord) (mode ipNo baseAddr colSize firstCol : Nat) :
    Nat → Nat → Nat → IP2ProxyRecord × Option String
  | _, _, 0 => (x, none)
  | low, high, Nat.succ fuel =>
    if low ≤ high then
      let mid := (low + high) % 4294967296 / 2
      let rowOffset := (baseAddr + mid * colSize) % 4294967296
      let readLen := (colSize + firstCol) % 4294967296
      match readRow d.f rowOffset readLen with
      | .error e => (x, some e)
      | .ok fullRow =>
        let ipFrom := rowVal ipType fullRow 0
        let ipTo := rowVal ipType fullRow colSize
        if ipFrom ≤ ipNo ∧ ipNo < ipTo then
          decodeRow d x mode ((fullRow.drop firstCol).take (colSize - firstCol))
        else if ipNo < ipFrom then
          searchLoop d ipType x mode ipNo baseAddr colSize firstCol low
            ((mid + 4294967295) % 4294967296) fuel
        else
          searchLoop d ipType x mode ipNo baseAddr colSize firstCol
            ((mid + 1) % 4294967296) high fuel
    else (x, none)

/-- `query`: sentinel early exits (missing file, invalid address, IPv6
against a v4-only database), family setup, optional index-window read, the
top-of-range decrement, then the binary search.  The fuel `high + 1` covers
every terminating run of the Go loop on a well-formed window. -/
def query (d : DB) (parsed : Option ParsedIP) (mode : Nat) :
    IP2ProxyRecord × Option String :=
  let x := loadMessage msgNotSupported
  if !d.metaOK then (loadMessage msgMissingFile, none)
  else
    let c := checkIP d parsed
    let ipType := c.1
    let ipNo0 := c.2.1
    let ipIndex := c.2.2
    if ipType = 0 then (loadMessage msgInvalidIP, none)
    else if ipType ≠ 4 ∧ d.meta.ipV6DatabaseCount = 0 then
      (loadMessage msgIPV6Unsupported, none)
    else
      let firstCol := if ipType = 4 then 4 else 16
      let baseAddr := if ipType = 4 then d.meta.ipV4DatabaseAddr else d.meta.ipV6DatabaseAddr
      let count := if ipType = 4 then d.meta.ipV4DatabaseCount else d.meta.ipV6DatabaseCount
      let maxIP := if ipType = 4 then maxIPV4Range else maxIPV6Range
      let colSize := if ipType = 4 then d.meta.ipV4ColumnSize else d.meta.ipV6ColumnSize
      match (if ipIndex > 0 then readRow d.f ipIndex 8 else .ok []) with
      | .error e => (x, some e)
      | .ok idxRow =>
        let low := if ipIndex > 0 then readUint32Row idxRow 0 else 0
        let high := if ipIndex > 0 then readUint32Row idxRow 4 else count
        let ipNo := if maxIP ≤ ipNo0 then ipNo0 - 1 else ipNo0
        searchLoop d ipType x mode ipNo baseAddr colSize firstCol low high (high + 1)

deriving instance DecidableEq for Except

/-- A reader whose reads always succeed and return zero bytes; used for
concrete evaluations. -/
def zeroReader : DBReader :=
  ⟨fun _ len => (List.replicate len 0, none)⟩

/-- Zeroed metadata (the state of a fresh `DB{}` value). -/
def emptyMeta : Ip2proxyMeta :=
  { databaseType := 0, databaseColumn := 0, databaseDay := 0, databaseMonth := 0
    databaseYear := 0, ipV4DatabaseCount := 0, ipV4DatabaseAddr := 0
    ipV6DatabaseCount := 0, ipV6DatabaseAddr := 0, ipV4Indexed := false
    ipV6Indexed := false, ipV4IndexBaseAddr := 0, ipV6IndexBaseAddr := 0
    ipV4ColumnSize := 0, ipV6ColumnSize := 0, productCode := 0
    productType := 0, fileSize := 0 }

/-- A handle with zeroed metadata and no enabled fields over reader `r`;
`ok` is its `metaOK` flag. -/
def plainDB (r : DBReader) (ok : Bool) : DB :=
  { f := r, meta := emptyMeta
    countryPositionOffset := 0, regionPositionOffset := 0, cityPositionOffset := 0
    ispPositionOffset := 0, proxyTypePositionOffset := 0, domainPositionOffset := 0
    usageTypePositionOffset := 0, asnPositionOffset := 0, asPositionOffset := 0
    lastSeenPositionOffset := 0, threatPositionOffset := 0, providerPositionOffset := 0
    countryEnabled := false, regionEnabled := false, cityEnabled := false
    ispEnabled := false, proxyTypeEnabled := false, domainEnabled := false
    usageTypeEnabled := false, asnEnabled := false, asEnabled := false
    lastSeenEnabled := false, threatEnabled := false, providerEnabled := false
    metaOK := ok }

/-- `runSteps` is absorbing on an already-failed state (Go already returned). -/
theorem runSteps_absorb (r : DBReader)
    (steps : List (Bool × Nat × (String → IP2ProxyRecord → IP2ProxyRecord)))
    (x : IP2ProxyRecord) (e : String) :
    runSteps r steps (x, some e) = (x, some e) := by
  induction steps with
  | nil => rfl
  | cons st rest ih => simpa [runSteps, decodeStep] using ih

/-- The decode sequence succeeds (no error component) exactly when every
step whose guard holds performs a successful `readStr`. -/
theorem runSteps_none_iff (r : DBReader)
    (steps : List (Bool × Nat × (String → IP2ProxyRecord → IP2ProxyRecord))) :
    ∀ x : IP2ProxyRecord,
      (runSteps r steps (x, none)).2 = none ↔
        ∀ st ∈ steps, st.1 = true → ∃ s, readStr r st.2.1 = .ok s := by
  induction steps with
  | nil => intro x; simp [runSteps]
  | cons st rest ih =>
    intro x
    by_cases hc : st.1 = true
    · cases hre : readStr r st.2.1 with
      | error e =>
        simp only [runSteps, decodeStep, hc, if_true, hre]
        rw [runSteps_absorb]
        simp only [List.mem_cons]
        constructor
        · intro h; cases h
        · intro h
          rcases h st (Or.inl rfl) hc with ⟨s, hs⟩
          rw [hre] at hs
          cases hs
      | ok s =>
        simp only [runSteps, decodeStep, hc, if_true, hre]
        rw [ih (st.2.2 s x)]
        simp only [List.mem_cons]
        constructor
        · intro h u hu hcu
          rcases hu with rfl | hu
          · exact ⟨s, hre⟩
          · exact h u hu hcu
        · intro h u hu hcu
          exact h u (Or.inr hu) hcu
    · simp only [runSteps, decodeStep, hc, if_false, Bool.false_eq_true]
      rw [ih x]
      simp only [List.mem_cons]
      constructor
      · intro h u hu hcu
        rcases hu with rfl | hu
        · exact absurd hcu hc
        · exact h u hu hcu
      · intro h u hu hcu
        exact h u (Or.inr hu) hcu

/-- If every executed setter preserves a string projection `g`, the decode
sequence preserves it too. -/
theorem runSteps_preserve (r : DBReader)
    (steps : List (Bool × Nat × (String → IP2ProxyRecord → IP2ProxyRecord)))
    (g : IP2ProxyRecord → String)
    (hpres : ∀ st ∈ steps, st.1 = true → ∀ s x, g (st.2.2 s x) = g x) :
    ∀ (x : IP2ProxyRecord) (o : Option String),
      g (runSteps r steps (x, o)).1 = g x := by
  induction steps with
  | nil => intro x o; rfl
  | cons st rest ih =>
    have hrest : ∀ u ∈ rest, u.1 = true → ∀ s x, g (u.2.2 s x) = g x :=
      fun u hu => hpres u (List.mem_cons_of_mem _ hu)
    intro x o
    cases o with
    | some e => rw [runSteps_absorb]
    | none =>
      show g (runSteps r rest (decodeStep r (x, none) st)).1 = g x
      by_cases hc : st.1 = true
      · cases hre : readStr r st.2.1 with
        | error e =>
          simp only [decodeStep, hc, if_true, hre]
          rw [runSteps_absorb]
        | ok s =>
          simp only [decodeStep, hc, if_true, hre]
          rw [ih hrest]
          exact hpres st (List.mem_cons_self _ _) hc s x
      · simp only [decodeStep, hc, if_false, Bool.false_eq_true]
        exact ih hrest x none

/-- C2: for every matched query whose decode succeeds, the returned
classification is 0 when the decoded short country code or proxy type is
the sentinel "-"; otherwise 2 when the proxy type is "DCH" or "SES", and 1
for any other proxy type (e.g. "VPN"). -/
theorem claim2_classification (d : DB) (x : IP2ProxyRecord) (mode : Nat)
    (row : List Nat) (r : IP2ProxyRecord)
    (h : decodeRow d x mode row = (r, none)) :
    r.IsProxy =
      if r.CountryShort = "-" ∨ r.ProxyType = "-" then 0
      else if r.ProxyType = "DCH" ∨ r.ProxyType = "SES" then 2
      else 1 := by
  unfold decodeRow at h
  rcases hrun : runSteps d.f (decodeSteps d mode row) (x, none) with ⟨y, o⟩
  rw [hrun] at h
  cases o with
  | some e => exact absurd (congrArg Prod.snd h) (by simp)
  | none =>
    have hr : r = { y with IsProxy := computeIsProxy y.CountryShort y.ProxyType } :=
      (congrArg Prod.fst h).symm
    subst hr
    simp only [computeIsProxy]

/-- C2 witness: a concrete decode with no requested fields classifies the
untouched defaults as 1. -/
theorem claim2_classification_witness :
    ({ loadMessage msgNotSupported with IsProxy := 1 } : IP2ProxyRecord).IsProxy =
      if ({ loadMessage msgNotSupported with IsProxy := 1 } : IP2ProxyRecord).CountryShort = "-" ∨
          ({ loadMessage msgNotSupported with IsProxy := 1 } : IP2ProxyRecord).ProxyType = "-" then 0
      else if ({ loadMessage msgNotSupported with IsProxy := 1 } : IP2ProxyRecord).ProxyType = "DCH" ∨
          ({ loadMessage msgNotSupported with IsProxy := 1 } : IP2ProxyRecord).ProxyType = "SES" then 2
      else 1 :=
  claim2_classification (plainDB zeroReader true) (loadMessage msgNotSupported) 0 []
    { loadMessage msgNotSupported with IsProxy := 1 } (by decide)

/-- C8 counterexample: the row sizes are computed in `uint8` arithmetic, so
they wrap for large column counts — at `c = 64` the IPv4 row size is 0, not
256, and at `c = 61` the IPv6 row size is 0, not 256. -/
theorem claim8_counterexample :
    ipv4ColumnSizeOf 64 ≠ 4 * 64 ∧ ipv6ColumnSizeOf 61 ≠ 16 + 4 * (61 - 1) := by
  decide

/-- C8 (amended): the IPv4 row size equals `4 * c` for `c ≤ 63` and the
IPv6 row size equals `16 + 4 * (c - 1)` for `1 ≤ c ≤ 60`; beyond those
bounds the `uint8` shift/add wraps mod 256. -/
theorem claim8_row_sizes (c : Nat) :
    (c ≤ 63 → ipv4ColumnSizeOf c = 4 * c) ∧
    (1 ≤ c → c ≤ 60 → ipv6ColumnSizeOf c = 16 + 4 * (c - 1)) := by
  unfold ipv4ColumnSizeOf ipv6ColumnSizeOf
  omega

/-- C8 witness: the amended formulas at the real schema maximum `c = 13`. -/
theorem claim8_row_sizes_witness :
    ipv4ColumnSizeOf 13 = 4 * 13 ∧ ipv6ColumnSizeOf 13 = 16 + 4 * (13 - 1) :=
  ⟨(claim8_row_sizes 13).1 (by decide), (claim8_row_sizes 13).2 (by decide) (by decide)⟩

/-- C9: `OpenDBWithReader` closes the already-acquired handle exactly on the
failure paths (header-read failure or failed structural validation); a
successful open leaves the handle open. -/
theorem claim9_close_on_failure (r : DBReader) :
    (OpenDBWithReader r).2 = true ↔ ∃ e, (OpenDBWithReader r).1 = .error e := by
  unfold OpenDBWithReader
  cases h : readRow r 1 64 with
  | error e => simp
  | ok row =>
    by_cases hc : (¬ byteAt row 29 = 2 ∧ 21 ≤ byteAt row 2) ∨
      (byteAt row 0 = 80 ∧ byteAt row 1 = 75)
    · simp [hc]
    · simp [hc]

/-- C5: the record-decoding phase of a matched query returns no error
exactly when every positioned string read it performs succeeds; hence any
failing read makes the whole query fail (the error component is set), and a
successful result can only arise from a decode in which every read
succeeded — no partially populated record is exposed as a success. -/
theorem claim5_no_partial_success (d : DB) (x : IP2ProxyRecord) (mode : Nat)
    (row : List Nat) :
    (decodeRow d x mode row).2 = none ↔
      ∀ st ∈ decodeSteps d mode row, st.1 = true → ∃ s, readStr d.f st.2.1 = .ok s := by
  unfold decodeRow
  rcases hrun : runSteps d.f (decodeSteps d mode row) (x, none) with ⟨y, o⟩
  have hiff := runSteps_none_iff d.f (decodeSteps d mode row) x
  rw [hrun] at hiff
  cases o with
  | some e => exact hiff
  | none => exact hiff

/-- C10: a matched query whose field reads succeed always returns a
classification in {0, 1, 2} (never the error value -1), for every request
mask; and when the mask requests none of country-short, country-long,
proxy-type or is-proxy, the classification is computed from the untouched
"NOT SUPPORTED" defaults and equals 1. -/
theorem claim10_matched_isproxy (d : DB) (mode : Nat) (row : List Nat)
    (r : IP2ProxyRecord)
    (h : decodeRow d (loadMessage msgNotSupported) mode row = (r, none)) :
    (r.IsProxy = 0 ∨ r.IsProxy = 1 ∨ r.IsProxy = 2) ∧
    (mode &&& countryShort = 0 → mode &&& countryLong = 0 →
      mode &&& proxyType = 0 → mode &&& isProxy = 0 → r.IsProxy = 1) := by
  unfold decodeRow at h
  rcases hrun : runSteps d.f (decodeSteps d mode row) (loadMessage msgNotSupported, none)
    with ⟨y, o⟩
  rw [hrun] at h
  cases o with
  | some e => exact absurd (congrArg Prod.snd h) (by simp)
  | none =>
    have hr : r = { y with IsProxy := computeIsProxy y.CountryShort y.ProxyType } :=
      (congrArg Prod.fst h).symm
    subst hr
    constructor
    · show computeIsProxy y.CountryShort y.ProxyType = 0 ∨
        computeIsProxy y.CountryShort y.ProxyType = 1 ∨
        computeIsProxy y.CountryShort y.ProxyType = 2
      unfold computeIsProxy
      split
      · exact Or.inl rfl
      · split
        · exact Or.inr (Or.inr rfl)
        · exact Or.inr (Or.inl rfl)
    · intro h1 h2 h3 h4
      have hcs : y.CountryShort = msgNotSupported := by
        have hp := runSteps_preserve d.f (decodeSteps d mode row)
          (fun z => z.CountryShort) ?_ (loadMessage msgNotSupported) none
        · rw [hrun] at hp; exact hp
        · intro st hst
          simp only [decodeSteps, List.mem_cons, List.not_mem_nil, or_false] at hst
          rcases hst with rfl | rfl | rfl | rfl | rfl | rfl | rfl | rfl | rfl | rfl | rfl | rfl | rfl
          · intro _ s z; rfl
          · intro hc; exfalso; simp [h1, h4] at hc
          all_goals intro _ s z; rfl
      have hpt : y.ProxyType = msgNotSupported := by
        have hp := runSteps_preserve d.f (decodeSteps d mode row)
          (fun z => z.ProxyType) ?_ (loadMessage msgNotSupported) none
        · rw [hrun] at hp; exact hp
        · intro st hst
          simp only [decodeSteps, List.mem_cons, List.not_mem_nil, or_false] at hst
          rcases hst with rfl | rfl | rfl | rfl | rfl | rfl | rfl | rfl | rfl | rfl | rfl | rfl | rfl
          · intro hc; exfalso; simp [h3, h4] at hc
          all_goals intro _ s z; rfl
      show computeIsProxy y.CountryShort y.ProxyType = 1
      rw [hcs, hpt]
      decide

/-- C10 witness: the mask 0 requests no fields; on a trivially succeeding
reader the returned classification is 1. -/
theorem claim10_matched_isproxy_witness :
    ((({ loadMessage msgNotSupported with IsProxy := 1 } : IP2ProxyRecord).IsProxy = 0 ∨
        ({ loadMessage msgNotSupported with IsProxy := 1 } : IP2ProxyRecord).IsProxy = 1 ∨
        ({ loadMessage msgNotSupported with IsProxy := 1 } : IP2ProxyRecord).IsProxy = 2) ∧
      ((0 : Nat) &&& countryShort = 0 → (0 : Nat) &&& countryLong = 0 →
        (0 : Nat) &&& proxyType = 0 → (0 : Nat) &&& isProxy = 0 →
        ({ loadMessage msgNotSupported with IsProxy := 1 } : IP2ProxyRecord).IsProxy = 1)) :=
  claim10_matched_isproxy (plainDB zeroReader true) 0 []
    { loadMessage msgNotSupported with IsProxy := 1 } (by decide)

/-- C3: IPv6 normalization tests the three special ranges in order and
rewrites to family 4: v4-mapped subtracts the range base; 6to4 (top 16 bits
`0x2002`) shifts right by 80 bits and masks to 32 bits; Teredo (top 32 bits
`0x20010000`) complements and masks to 32 bits; any other value keeps
family 6.  Concretely `::ffff:199.83.103.79` yields the same family-4 key
`0xc753674f` as `199.83.103.79`, and `2002:c753:671f::` yields family 4
with value `0xc753671f`. -/
theorem claim3_normalization (n v : Nat) :
    (v < 4294967296 → n = fromV4Mapped + v → normalizeV6 n = (4, v)) ∧
    (n / 2 ^ 112 = 0x2002 → normalizeV6 n = (4, n / 2 ^ 80 % 4294967296)) ∧
    (n / 2 ^ 96 = 0x20010000 →
      normalizeV6 n = (4, (340282366920938463463374607431768211455 - n) % 4294967296)) ∧
    (¬ (fromV4Mapped ≤ n ∧ n ≤ toV4Mapped) → n / 2 ^ 112 ≠ 0x2002 →
      n / 2 ^ 96 ≠ 0x20010000 → normalizeV6 n = (6, n)) ∧
    normalizeV6 (fromV4Mapped + 0xc753674f) = (4, 0xc753674f) ∧
    normalizeV6 (0x2002 * 2 ^ 112 + 0xc753 * 2 ^ 96 + 0x671f * 2 ^ 80) = (4, 0xc753671f) := by
  refine ⟨?_, ?_, ?_, ?_, by decide, by decide⟩
  · intro hv hn
    subst hn
    have hA : fromV4Mapped ≤ fromV4Mapped + v ∧ fromV4Mapped + v ≤ toV4Mapped := by
      unfold fromV4Mapped toV4Mapped; omega
    unfold normalizeV6
    rw [if_pos hA]
    simp only [Prod.mk.injEq, true_and]
    unfold fromV4Mapped
    omega
  · intro hdiv
    have e112 : (2 : Nat) ^ 112 = 5192296858534827628530496329220096 := by norm_num
    rw [e112] at hdiv
    have hA : ¬ (fromV4Mapped ≤ n ∧ n ≤ toV4Mapped) := by
      unfold fromV4Mapped toV4Mapped; omega
    have hB : from6To4 ≤ n ∧ n ≤ to6To4 := by
      unfold from6To4 to6To4; omega
    unfold normalizeV6
    rw [if_neg hA, if_pos hB]
  · intro hdiv
    have e96 : (2 : Nat) ^ 96 = 79228162514264337593543950336 := by norm_num
    rw [e96] at hdiv
    have hA : ¬ (fromV4Mapped ≤ n ∧ n ≤ toV4Mapped) := by
      unfold fromV4Mapped toV4Mapped; omega
    have hB : ¬ (from6To4 ≤ n ∧ n ≤ to6To4) := by
      unfold from6To4 to6To4; omega
    have hC : fromTeredo ≤ n ∧ n ≤ toTeredo := by
      unfold fromTeredo toTeredo; omega
    unfold normalizeV6
    rw [if_neg hA, if_neg hB, if_pos hC]
  · intro hA hdiv112 hdiv96
    have e112 : (2 : Nat) ^ 112 = 5192296858534827628530496329220096 := by norm_num
    have e96 : (2 : Nat) ^ 96 = 79228162514264337593543950336 := by norm_num
    rw [e112] at hdiv112
    rw [e96] at hdiv96
    have hB : ¬ (from6To4 ≤ n ∧ n ≤ to6To4) := by
      unfold from6To4 to6To4; omega
    have hC : ¬ (fromTeredo ≤ n ∧ n ≤ toTeredo) := by
      unfold fromTeredo toTeredo; omega
    unfold normalizeV6
    rw [if_neg hA, if_neg hB, if_neg hC]

/-- C3 witness: the 6to4 rewriting applied at the concrete address of the
spec example. -/
theorem claim3_normalization_witness :
    normalizeV6 (0x2002 * 2 ^ 112 + 0xc753 * 2 ^ 96 + 0x671f * 2 ^ 80) =
      (4, (0x2002 * 2 ^ 112 + 0xc753 * 2 ^ 96 + 0x671f * 2 ^ 80) / 2 ^ 80 % 4294967296) :=
  (claim3_normalization (0x2002 * 2 ^ 112 + 0xc753 * 2 ^ 96 + 0x671f * 2 ^ 80) 0).2.1
    (by norm_num)

/-- Buffer bytes of a slice come from the file (mod 256). -/
theorem sliceAt_getD (f : ByteFile) (off len i : Nat) (h : i < len) :
    (sliceAt f off len).getD i 0 = f.getD (off + i) 0 % 256 := by
  simp [sliceAt, List.getD, List.getElem?_map, List.getElem?_range, h]

/-- The tail of a 256-byte window, truncated to `L ≤ 255` bytes, is the
window of `L` bytes one position later. -/
theorem sliceAt_tail_take (f : ByteFile) (pos L : Nat) (hL : L ≤ 255) :
    (sliceAt f pos 256).tail.take L = sliceAt f (pos + 1) L := by
  unfold sliceAt
  rw [show (256 : Nat) = 255 + 1 from rfl, List.range_succ_eq_map]
  simp only [List.map_cons, List.tail_cons, List.map_map]
  rw [← List.map_take, List.take_range, Nat.min_eq_left hL]
  apply List.map_congr_left
  intro a _
  simp only [Function.comp_apply]
  congr 2
  omega

/-- C4: opening fails with the format error exactly when the structural
check fails on a complete header — non-matching product code with
compilation year 2021+ (`databaseYear ≥ 21`), or the "PK" zip signature
(bytes 80, 75) — and opening a file shorter than the 64-byte header fails
with the read ("EOF") error; a successful open implies none of these. -/
theorem claim4_open_format_check (f : ByteFile) :
    (f.length < 64 → OpenDBWithReader (fileReader f) = (.error "EOF", true)) ∧
    (64 ≤ f.length →
      (((OpenDBWithReader (fileReader f)).1 = .error msgInvalidBin) ↔
        ((f.getD 29 0 % 256 ≠ 2 ∧ 21 ≤ f.getD 2 0 % 256) ∨
          (f.getD 0 0 % 256 = 80 ∧ f.getD 1 0 % 256 = 75)))) ∧
    (∀ db, (OpenDBWithReader (fileReader f)).1 = .ok db →
      64 ≤ f.length ∧
      ¬ ((f.getD 29 0 % 256 ≠ 2 ∧ 21 ≤ f.getD 2 0 % 256) ∨
        (f.getD 0 0 % 256 = 80 ∧ f.getD 1 0 % 256 = 75))) := by
  have hb : ∀ i, i < 64 → byteAt (sliceAt f 0 64) i = f.getD i 0 % 256 := by
    intro i hi
    unfold byteAt
    rw [sliceAt_getD f 0 64 i hi, Nat.zero_add]
  by_cases hlen : f.length < 64
  · have hopen : OpenDBWithReader (fileReader f) = (.error "EOF", true) := by
      unfold OpenDBWithReader readRow fileReader goReadAt
      simp [hlen]
    refine ⟨fun _ => hopen, fun h64 => absurd hlen (by omega), fun db hdb => ?_⟩
    rw [hopen] at hdb
    exact absurd hdb (by simp)
  · have h64 : 64 ≤ f.length := by omega
    have hrow : readRow (fileReader f) 1 64 = .ok (sliceAt f 0 64) := by
      unfold readRow fileReader goReadAt
      simp [hlen]
    have hcnd : ((¬ byteAt (sliceAt f 0 64) 29 = 2 ∧ 21 ≤ byteAt (sliceAt f 0 64) 2) ∨
          (byteAt (sliceAt f 0 64) 0 = 80 ∧ byteAt (sliceAt f 0 64) 1 = 75)) ↔
        ((f.getD 29 0 % 256 ≠ 2 ∧ 21 ≤ f.getD 2 0 % 256) ∨
          (f.getD 0 0 % 256 = 80 ∧ f.getD 1 0 % 256 = 75)) := by
      rw [hb 29 (by omega), hb 2 (by omega), hb 0 (by omega), hb 1 (by omega)]
    by_cases hc : (f.getD 29 0 % 256 ≠ 2 ∧ 21 ≤ f.getD 2 0 % 256) ∨
        (f.getD 0 0 % 256 = 80 ∧ f.getD 1 0 % 256 = 75)
    · have hopen : OpenDBWithReader (fileReader f) = (.error msgInvalidBin, true) := by
        unfold OpenDBWithReader
        simp only [hrow]
        rw [if_pos (hcnd.mpr hc)]
      refine ⟨fun h => absurd h hlen, fun _ => ?_, fun db hdb => ?_⟩
      · rw [hopen]
        exact iff_of_true rfl hc
      · rw [hopen] at hdb
        exact absurd hdb (by simp)
    · have hopen : ∃ db, OpenDBWithReader (fileReader f) = (.ok db, false) := by
        unfold OpenDBWithReader
        simp only [hrow]
        rw [if_neg (fun hx => hc (hcnd.mp hx))]
        exact ⟨_, rfl⟩
      rcases hopen with ⟨db, hdb⟩
      refine ⟨fun h => absurd h hlen, fun _ => ?_, fun db2 _ => ⟨h64, hc⟩⟩
      rw [hdb]
      exact iff_of_false (by simp) hc

/-- C4 witness: a 10-byte file fails the open with the read error and a
closed handle. -/
theorem claim4_open_format_check_witness :
    OpenDBWithReader (fileReader (List.replicate 10 0)) = (.error "EOF", true) :=
  (claim4_open_format_check (List.replicate 10 0)).1 (by decide)

/-- C7: an unparseable input yields the "INVALID IP ADDRESS" sentinel record
with a nil error; a query before a valid open yields the "MISSING FILE"
record; an IPv6 key (one the special ranges do not remap) against a database
with zero IPv6 rows yields the "IPV6 ADDRESS MISSING IN IPV4 BIN" record;
and every sentinel record carries the message in all thirteen string fields
with classification -1. -/
theorem claim7_sentinel_records (d : DB) (mode : Nat) (n : Nat)
    (hok : d.metaOK = true)
    (hv6 : d.meta.ipV6DatabaseCount = 0)
    (hn1 : ¬ (fromV4Mapped ≤ n ∧ n ≤ toV4Mapped))
    (hn2 : ¬ (from6To4 ≤ n ∧ n ≤ to6To4))
    (hn3 : ¬ (fromTeredo ≤ n ∧ n ≤ toTeredo)) :
    query d none mode = (loadMessage msgInvalidIP, none) ∧
    (∀ d2 : DB, d2.metaOK = false → ∀ p mode2,
      query d2 p mode2 = (loadMessage msgMissingFile, none)) ∧
    query d (some (.v6 n)) mode = (loadMessage msgIPV6Unsupported, none) ∧
    (∀ m : String, (loadMessage m).CountryShort = m ∧ (loadMessage m).CountryLong = m ∧
      (loadMessage m).Region = m ∧ (loadMessage m).City = m ∧ (loadMessage m).Isp = m ∧
      (loadMessage m).ProxyType = m ∧ (loadMessage m).Domain = m ∧
      (loadMessage m).UsageType = m ∧ (loadMessage m).Asn = m ∧ (loadMessage m).As = m ∧
      (loadMessage m).LastSeen = m ∧ (loadMessage m).Threat = m ∧
      (loadMessage m).Provider = m ∧ (loadMessage m).IsProxy = -1) := by
  refine ⟨?_, ?_, ?_, ?_⟩
  · unfold query
    simp [hok, checkIP]
  · intro d2 h2 p mode2
    unfold query
    simp [h2]
  · unfold query
    simp [hok, checkIP, normalizeV6, hn1, hn2, hn3, hv6]
  · intro m
    exact ⟨rfl, rfl, rfl, rfl, rfl, rfl, rfl, rfl, rfl, rfl, rfl, rfl, rfl, rfl⟩

/-- C7 witness: the invalid-input sentinel on a concrete open handle. -/
theorem claim7_sentinel_records_witness :
    query (plainDB zeroReader true) none 0 = (loadMessage msgInvalidIP, none) :=
  (claim7_sentinel_records (plainDB zeroReader true) 0 0 rfl rfl
    (by decide) (by decide) (by decide)).1

/-- Follows the spec's words, for comparison only: a string read that treats
the stored pointer as a 1-based position and subtracts 1 before the 0-based
positioned read. -/
def readStrOneBased (r : DBReader) (pos : Nat) : Except String String :=
  let res := r.readAt (pos - 1) 256
  match res.2 with
  | some e => if e = "EOF" then .ok (strOfBuf res.1) else .error e
  | none => .ok (strOfBuf res.1)

/-- C6 counterexample: the string read does not subtract 1 — on the file
`[1, 2, 65, 66]`, `readStr` at stored pointer 1 finds length byte 2 at
0-based offset 1 and returns "AB", while the spec's decrement-first reading
would find length byte 1 at offset 0 and return a different string. -/
theorem claim6_counterexample :
    readStr (fileReader [1, 2, 65, 66]) 1 = .ok "AB" ∧
    readStrOneBased (fileReader [1, 2, 65, 66]) 1 ≠ .ok "AB" := by
  decide

/-- C6 (amended): the byte, row, uint32 and uint128 reads all subtract 1
from their 1-based position before the 0-based positioned read, but the
length-prefixed string read uses the row-stored pointer directly as the
0-based position of the length byte (no subtraction). -/
theorem claim6_positions (f : ByteFile) (pos size : Nat) :
    (1 ≤ pos → pos - 1 + size ≤ f.length →
      readRow (fileReader f) pos size = .ok (sliceAt f (pos - 1) size)) ∧
    (1 ≤ pos → pos ≤ f.length →
      readUint8 (fileReader f) pos = .ok (f.getD (pos - 1) 0 % 256)) ∧
    (1 ≤ pos → pos + 3 ≤ f.length →
      readUint32 (fileReader f) pos = .ok (readUint32Row (sliceAt f (pos - 1) 4) 0)) ∧
    (1 ≤ pos → pos + 15 ≤ f.length →
      readUint128 (fileReader f) pos = .ok (readUint128Row (sliceAt f (pos - 1) 16) 0)) ∧
    (readStr (fileReader f) pos =
      .ok (convertBytesToString (sliceAt f (pos + 1) (f.getD pos 0 % 256)))) := by
  refine ⟨?_, ?_, ?_, ?_, ?_⟩
  · intro h1 h2
    unfold readRow fileReader goReadAt
    simp [show ¬ f.length < pos - 1 + size by omega]
  · intro h1 h2
    unfold readUint8 fileReader goReadAt byteAt
    simp [show ¬ f.length < pos - 1 + 1 by omega]
    simpa using sliceAt_getD f (pos - 1) 1 0 (by decide)
  · intro h1 h2
    unfold readUint32 fileReader goReadAt
    simp [show ¬ f.length < pos - 1 + 4 by omega]
  · intro h1 h2
    unfold readUint128 fileReader goReadAt
    simp [show ¬ f.length < pos - 1 + 16 by omega]
  · have hL : f.getD pos 0 % 256 ≤ 255 := by omega
    have hb0 : byteAt (sliceAt f pos 256) 0 = f.getD pos 0 % 256 := by
      unfold byteAt
      rw [sliceAt_getD f pos 256 0 (by omega), Nat.add_zero]
    have ht := sliceAt_tail_take f pos (f.getD pos 0 % 256) hL
    unfold readStr fileReader goReadAt strOfBuf
    by_cases h : f.length < pos + 256
    · simp only [h, if_true]
      rw [hb0, ht]
    · simp only [h, if_false]
      rw [hb0, ht]

/-- C6 witness: the row read at stored position 1 starts at file offset 0. -/
theorem claim6_positions_witness :
    readRow (fileReader [5, 6, 7]) 1 2 = .ok (sliceAt [5, 6, 7] 0 2) :=
  (claim6_positions [5, 6, 7] 1 2).1 (by decide) (by decide)

/-- Binary-search invariant: over a monotone `ipFrom` table whose rows the
reader serves at the offsets the loop computes, the loop starting from any
window `[low, high]` containing the matching row `r` reaches `r` and
returns the decode of its field region.  `fuel ≥ high + 1 - low` suffices. -/
theorem searchLoop_finds_aux (d : DB) (ipType : Nat) (x : IP2ProxyRecord)
    (mode ipNo baseAddr colSize firstCol : Nat)
    (tbl : Nat → Nat) (rowAt : Nat → List Nat) (low0 high0 r : Nat)
    (hbound : high0 < 2147483648)
    (hread : ∀ i, i ≤ high0 → low0 ≤ i →
      readRow d.f ((baseAddr + i * colSize) % 4294967296)
        ((colSize + firstCol) % 4294967296) = .ok (rowAt i))
    (hfrom : ∀ i, i ≤ high0 → low0 ≤ i → rowVal ipType (rowAt i) 0 = tbl i)
    (hnext : ∀ i, i ≤ high0 → low0 ≤ i → rowVal ipType (rowAt i) colSize = tbl (i + 1))
    (hmono : ∀ j, j ≤ high0 + 1 → ∀ i, i ≤ j → low0 ≤ i → tbl i ≤ tbl j)
    (hrlow : low0 ≤ r) (hrhigh : r ≤ high0)
    (hin1 : tbl r ≤ ipNo) (hin2 : ipNo < tbl (r + 1)) :
    ∀ fuel low high, low0 ≤ low → high ≤ high0 → low ≤ r → r ≤ high →
      high + 1 ≤ fuel + low →
      searchLoop d ipType x mode ipNo baseAddr colSize firstCol low high fuel =
        decodeRow d x mode (((rowAt r).drop firstCol).take (colSize - firstCol)) := by
  intro fuel
  induction fuel with
  | zero => intro low high _ _ h3 h4 h5; omega
  | succ fuel ih =>
    intro low high hl0 hh0 hlr hrh hfuel
    have hlh : low ≤ high := le_trans hlr hrh
    have hmid2 : (low + high) % 4294967296 = low + high := Nat.mod_eq_of_lt (by omega)
    have hmlow : low ≤ (low + high) / 2 := by omega
    have hmhigh : (low + high) / 2 ≤ high := by omega
    have hmid_hi : (low + high) / 2 ≤ high0 := le_trans hmhigh hh0
    have hmid_lo : low0 ≤ (low + high) / 2 := le_trans hl0 hmlow
    simp only [searchLoop, hlh, if_true, hmid2,
      hread ((low + high) / 2) hmid_hi hmid_lo]
    rw [hfrom ((low + high) / 2) hmid_hi hmid_lo,
      hnext ((low + high) / 2) hmid_hi hmid_lo]
    by_cases hA : tbl ((low + high) / 2) ≤ ipNo ∧ ipNo < tbl ((low + high) / 2 + 1)
    · have hmr : (low + high) / 2 = r := by
        by_contra hne
        rcases Nat.lt_or_ge ((low + high) / 2) r with hlt | hge
        · have := hmono r (by omega) ((low + high) / 2 + 1) (by omega) (by omega)
          omega
        · have := hmono ((low + high) / 2) (by omega) (r + 1) (by omega) (by omega)
          omega
      rw [if_pos hA, hmr]
    · rw [if_neg hA]
      by_cases hB : ipNo < tbl ((low + high) / 2)
      · have hrmid : r < (low + high) / 2 := by
          by_contra hge
          push_neg at hge
          have := hmono r (by omega) ((low + high) / 2) (by omega) (by omega)
          omega
        rw [if_pos hB,
          show ((low + high) / 2 + 4294967295) % 4294967296 = (low + high) / 2 - 1 by omega]
        exact ih low ((low + high) / 2 - 1) hl0 (by omega) hlr (by omega) (by omega)
      · have hup : tbl ((low + high) / 2 + 1) ≤ ipNo := by
          rcases Nat.lt_or_ge ipNo (tbl ((low + high) / 2 + 1)) with hlt | hge
          · exact absurd ⟨by omega, hlt⟩ hA
          · exact hge
        have hmidr : (low + high) / 2 < r := by
          by_contra hge
          push_neg at hge
          have := hmono ((low + high) / 2 + 1) (by omega) (r + 1) (by omega) (by omega)
          omega
        rw [if_neg hB,
          show ((low + high) / 2 + 1) % 4294967296 = (low + high) / 2 + 1 by omega]
        exact ih ((low + high) / 2 + 1) high (by omega) hh0 (by omega) hrh (by omega)

/-- C1: on a database whose per-family range table is ascending (monotone
`ipFrom` bounds, hence non-overlapping half-open ranges with each `ipTo`
read from the adjacent next row's `ipFrom` field), the binary search of
`query` over the window `[low0, high0]` containing the key returns the
record decoded from exactly the unique row `r` with
`ipFrom r ≤ key < ipFrom (r+1)`; each candidate row is tested with
`ipFrom ≤ key < ipTo` and the window narrows with `high = mid - 1` when
`key < ipFrom` and `low = mid + 1` otherwise. -/
theorem claim1_binary_search (d : DB) (ipType : Nat) (x : IP2ProxyRecord)
    (mode ipNo baseAddr colSize firstCol : Nat)
    (tbl : Nat → Nat) (rowAt : Nat → List Nat) (low0 high0 r fuel : Nat)
    (hbound : high0 < 2147483648)
    (hfuel : high0 + 1 ≤ fuel + low0)
    (hread : ∀ i, i ≤ high0 → low0 ≤ i →
      readRow d.f ((baseAddr + i * colSize) % 4294967296)
        ((colSize + firstCol) % 4294967296) = .ok (rowAt i))
    (hfrom : ∀ i, i ≤ high0 → low0 ≤ i → rowVal ipType (rowAt i) 0 = tbl i)
    (hnext : ∀ i, i ≤ high0 → low0 ≤ i → rowVal ipType (rowAt i) colSize = tbl (i + 1))
    (hmono : ∀ j, j ≤ high0 + 1 → ∀ i, i ≤ j → low0 ≤ i → tbl i ≤ tbl j)
    (hrlow : low0 ≤ r) (hrhigh : r ≤ high0)
    (hin1 : tbl r ≤ ipNo) (hin2 : ipNo < tbl (r + 1)) :
    searchLoop d ipType x mode ipNo baseAddr colSize firstCol low0 high0 fuel =
      decodeRow d x mode (((rowAt r).drop firstCol).take (colSize - firstCol)) ∧
    ∀ s, s ≤ high0 → low0 ≤ s → tbl s ≤ ipNo → ipNo < tbl (s + 1) → s = r := by
  have huniq : ∀ s, s ≤ high0 → low0 ≤ s → tbl s ≤ ipNo → ipNo < tbl (s + 1) → s = r := by
    intro s hs1 hs2 hs3 hs4
    by_contra hne
    rcases Nat.lt_or_ge s r with hlt | hge
    · have := hmono r (by omega) (s + 1) (by omega) (by omega)
      omega
    · have := hmono s (by omega) (r + 1) (by omega) (by omega)
      omega
  exact ⟨searchLoop_finds_aux d ipType x mode ipNo baseAddr colSize firstCol tbl rowAt
    low0 high0 r hbound hread hfrom hnext hmono hrlow hrhigh hin1 hin2
    fuel low0 high0 (le_refl _) (le_refl _) hrlow hrhigh hfuel, huniq⟩

/-- A concrete 28-byte file holding a 2-row IPv4 table (`colSize = 8`, base
position 1): `ipFrom` bounds 0, 10 and terminator 4294967295. -/
def wfile : ByteFile :=
  [0, 0, 0, 0, 9, 1, 0, 0,
   10, 0, 0, 0, 9, 1, 0, 0,
   255, 255, 255, 255, 9, 1, 0, 0,
   0, 0, 0, 0]

/-- The handle over `wfile` used by the search witness. -/
def wdb : DB := plainDB (fileReader wfile) true

/-- Extended row buffers of `wfile` (row plus next `ipFrom`). -/
def rowAtW : Nat → List Nat := fun i => sliceAt wfile (i * 8) 12

/-- The `ipFrom` table of `wfile`. -/
def tblW : Nat → Nat := fun i => readUint32Row (rowAtW i) 0

/-- C1 witness: searching key 12 in the concrete 2-row table returns the
decode of row 1, the unique containing row. -/
theorem claim1_binary_search_witness :
    (searchLoop wdb 4 (loadMessage msgNotSupported) 0 12 1 8 4 0 1 2 =
      decodeRow wdb (loadMessage msgNotSupported) 0 (((rowAtW 1).drop 4).take (8 - 4))) ∧
    ∀ s, s ≤ 1 → 0 ≤ s → tblW s ≤ 12 → 12 < tblW (s + 1) → s = 1 :=
  claim1_binary_search wdb 4 (loadMessage msgNotSupported) 0 12 1 8 4 tblW rowAtW 0 1 1 2
    (by decide) (by decide) (by decide) (by decide) (by decide) (by decide)
    (by decide) (by decide) (by decide) (by decide)

end IP2Proxy
